import Mathlib

/-!
Verification development for the options-decoding core (the QEMU options
visitor embedded in the repository source). The definitions below are a
shallow embedding of the C functions in
`src/AndroidTrustyOS/external/qemu/hw/arm/vexpress.c` (the opts-visitor
portion of that file): `opts_visitor_insert`, `opts_start_struct`,
`opts_end_struct`, `lookup_distinct`, `opts_start_list`, `opts_next_list`,
`opts_end_list`, `lookup_scalar`, `processed`, `opts_type_str`,
`opts_type_bool`, `opts_type_int`, `opts_type_uint64`, `opts_type_size` and
`opts_start_optional`.

Modelling conventions:
 - a `QemuOpt` is a name together with an optional value string (a C null
   `str` pointer is `none`);
 - the `GHashTable` of non-empty `GQueue`s is an association list from names
   to occurrence lists, in insertion order; `g_hash_table_find` with an
   always-true predicate is modelled as taking the first entry;
 - the C `repeated_opts` pointer into the hash table is modelled by the key
   (name) of the queue it points at;
 - machine integers are `Int` / `Nat` with explicit 64-bit clamping where the
   C library functions clamp;
 - `assert` failures, `abort()` and dereferences of null/danging pointers are
   the `fatal` outcome; `error_set` failures are the `err` outcome carrying
   the post-call visitor state.
-/

/-- One parsed option occurrence: C struct `QemuOpt` restricted to the fields
the visitor reads (`name` and `str`; `str == NULL` is `none`). -/
structure QemuOpt where
  name : String
  str : Option String
deriving DecidableEq, Repr

/-- The unprocessed-options index: C `GHashTable *unprocessed_opts`, a map
from option name to the queue of occurrences of that name. -/
abbrev Index := List (String × List QemuOpt)

/-- C enum `ListMode`. -/
inductive ListMode where
  | LM_NONE
  | LM_STARTED
  | LM_IN_PROGRESS
  | LM_SIGNED_INTERVAL
  | LM_UNSIGNED_INTERVAL
deriving DecidableEq, Repr

/-- C struct `OptsVisitor`: the decode-session state. The `range_next` /
`range_limit` union is split into the signed and unsigned fields; only the
fields matching the current `list_mode` are meaningful. -/
structure OptsVisitor where
  opts_root : List QemuOpt
  opts_root_id : Option String
  depth : Nat
  unprocessed_opts : Index
  list_mode : ListMode
  repeated_opts : Option String
  range_next_s : Int
  range_limit_s : Int
  range_next_u : Nat
  range_limit_u : Nat
deriving DecidableEq, Repr

/-- The three data-error kinds reported through `error_set`. -/
inductive VisitorError where
  | MissingParameter (name : String)
  | InvalidParameter (name : String)
  | InvalidParameterValue (name : String) (expected : String)
deriving DecidableEq, Repr

/-- Outcome of one visitor operation. `ok` returns a value and the post
state; `err` is an `error_set` failure with the post state; `silent` is the
unreachable-under-invariants C path that returns without a value and without
setting the error; `fatal` is an `assert` failure / `abort` / undefined
behaviour. -/
inductive Res (α : Type) where
  | ok (val : α) (state : OptsVisitor)
  | silent (state : OptsVisitor)
  | err (e : VisitorError) (state : OptsVisitor)
  | fatal
deriving DecidableEq, Repr

/-- The state carried by a non-fatal outcome. -/
def resState {α : Type} : Res α → Option OptsVisitor
  | .ok _ t => some t
  | .silent t => some t
  | .err _ t => some t
  | .fatal => none

/-- C `g_hash_table_lookup` on the index. -/
def idxLookup (idx : Index) (name : String) : Option (List QemuOpt) :=
  match idx with
  | [] => none
  | (n, q) :: rest => if n = name then some q else idxLookup rest name

/-- C `g_hash_table_remove` on the index (keys are unique in a hash table,
so removing every binding of the key is the same operation). -/
def idxRemove (idx : Index) (name : String) : Index :=
  match idx with
  | [] => []
  | (n, q) :: rest =>
    if n = name then idxRemove rest name else (n, q) :: idxRemove rest name

/-- Replacing the queue stored under a key, modelling in-place mutation of
the `GQueue` the hash table owns. -/
def idxUpdate (idx : Index) (name : String) (q : List QemuOpt) : Index :=
  match idx with
  | [] => []
  | (n, p) :: rest =>
    if n = name then (n, q) :: idxUpdate rest name q
    else (n, p) :: idxUpdate rest name q

/-- C `opts_visitor_insert`: append the occurrence to the queue of its name,
creating the queue if the name is new. -/
def idxInsertOpt (idx : Index) (opt : QemuOpt) : Index :=
  match idx with
  | [] => [(opt.name, [opt])]
  | (n, q) :: rest =>
    if n = opt.name then (n, q ++ [opt]) :: rest
    else (n, q) :: idxInsertOpt rest opt

/-- 2^32, the modulus of the C `unsigned depth` counter. -/
def UINT32_MOD : Nat := 4294967296

/-- C `INT64_MAX`. -/
def INT64_MAX : Int := 9223372036854775807

/-- C `INT64_MIN`. -/
def INT64_MIN : Int := -9223372036854775808

/-- C `UINT64_MAX` as a natural number. -/
def UINT64_MAX_N : Nat := 18446744073709551615

/-- 2^64, the modulus of C `unsigned long long` arithmetic. -/
def UINT64_MOD : Nat := 18446744073709551616

/-- Modelled from the spec: the range-expansion cap `OPTS_VISITOR_RANGE_MAX`
is defined in the repository header `qapi/opts-visitor.h`, which is not under
`src/`; the spec leaves the exact cap an implementation choice, and the
repository fixes it at 65536. -/
def OPTS_VISITOR_RANGE_MAX : Int := 65536

/-- The unsigned view of the same cap. -/
def OPTS_VISITOR_RANGE_MAX_N : Nat := 65536

/-- C `isspace` in the default locale. -/
def c_isspace (c : Char) : Bool :=
  c = ' ' || c = '\t' || c = '\n' || c = '\x0b' || c = '\x0c' || c = '\r'

/-- Numeric value of a hexadecimal digit character, `none` otherwise. -/
def digitVal (c : Char) : Option Nat :=
  if '0' ≤ c ∧ c ≤ '9' then some (c.toNat - '0'.toNat)
  else if 'a' ≤ c ∧ c ≤ 'f' then some (c.toNat - 'a'.toNat + 10)
  else if 'A' ≤ c ∧ c ≤ 'F' then some (c.toNat - 'A'.toNat + 10)
  else none

/-- Whether a character is a hexadecimal digit. -/
def isHexDigit (c : Char) : Bool :=
  (digitVal c).isSome

/-- Consume leading digits of the given base, returning the accumulated
value, the number of digits consumed and the remaining characters. -/
def takeDigits (base : Nat) : List Char → Nat → Nat → Nat × Nat × List Char
  | [], acc, cnt => (acc, cnt, [])
  | c :: rest, acc, cnt =>
    match digitVal c with
    | some d =>
      if d < base then takeDigits base rest (acc * base + d) (cnt + 1)
      else (acc, cnt, c :: rest)
    | none => (acc, cnt, c :: rest)

/-- Digit part of `strtoll`/`strtoull` with base 0: auto-detect hexadecimal
(`0x` followed by a hex digit), octal (other leading `0`) or decimal. -/
def strtollBody : List Char → Nat × Nat × List Char
  | '0' :: x :: c :: rest =>
    if (x = 'x' ∨ x = 'X') ∧ isHexDigit c then takeDigits 16 (c :: rest) 0 0
    else takeDigits 8 ('0' :: x :: c :: rest) 0 0
  | '0' :: rest => takeDigits 8 ('0' :: rest) 0 0
  | cs => takeDigits 10 cs 0 0

/-- Result of the `strtoll` model: the (clamped) value, whether `errno` was
set to `ERANGE`, the remaining characters (`endptr`), and whether any digits
were converted (`endptr > str`). -/
structure StrtollRes where
  val : Int
  erange : Bool
  rest : List Char
  converted : Bool
deriving DecidableEq, Repr

/-- C `strtoll(str, &endptr, 0)` (`long long` is the int64 domain): skip
whitespace, read an optional sign, convert digits with base auto-detection,
and clamp to the int64 range with `ERANGE` on overflow. When nothing
converts, `endptr` is the original string. -/
def strtoll_c (cs : List Char) : StrtollRes :=
  let ws := cs.dropWhile c_isspace
  let sb : Bool × List Char :=
    match ws with
    | '-' :: r => (true, r)
    | '+' :: r => (false, r)
    | r => (false, r)
  let p := strtollBody sb.2
  if p.2.1 = 0 then ⟨0, false, cs, false⟩
  else
    let v : Int := if sb.1 then -(p.1 : Int) else (p.1 : Int)
    if v < INT64_MIN then ⟨INT64_MIN, true, p.2.2, true⟩
    else if v > INT64_MAX then ⟨INT64_MAX, true, p.2.2, true⟩
    else ⟨v, false, p.2.2, true⟩

/-- Result of the `strtoull` model. -/
structure StrtoullRes where
  val : Nat
  erange : Bool
  rest : List Char
  converted : Bool
deriving DecidableEq, Repr

/-- C `strtoull(str, &endptr, 0)`: like `strtoll_c` but the value is reduced
into the uint64 domain (a leading minus wraps modulo 2^64) and overflow of
the magnitude clamps to `UINT64_MAX` with `ERANGE`. -/
def strtoull_c (cs : List Char) : StrtoullRes :=
  let ws := cs.dropWhile c_isspace
  let sb : Bool × List Char :=
    match ws with
    | '-' :: r => (true, r)
    | '+' :: r => (false, r)
    | r => (false, r)
  let p := strtollBody sb.2
  if p.2.1 = 0 then ⟨0, false, cs, false⟩
  else if p.1 > UINT64_MAX_N then ⟨UINT64_MAX_N, true, p.2.2, true⟩
  else if sb.1 then ⟨(UINT64_MOD - p.1 % UINT64_MOD) % UINT64_MOD, false, p.2.2, true⟩
  else ⟨p.1, false, p.2.2, true⟩

/-- Result of the `parse_uint` model: whether the call returned 0, the
parsed value, and the `endptr` remainder. -/
structure ParseUintRes where
  ok : Bool
  val : Nat
  rest : List Char
deriving DecidableEq, Repr

/-- Modelled from the spec: `parse_uint` lives in the repository's util
sources (`util/cutils.c`), which are not under `src/`. Per the spec the
unsigned decoder's parser admits no unary minus at top level, and a missing
(null) string is rejected rather than read: the function fails on a null
input, on `ERANGE`/no-conversion from `strtoull`, and on a value whose first
non-space character is a minus sign. -/
def parse_uint : Option (List Char) → ParseUintRes
  | none => ⟨false, 0, []⟩
  | some cs =>
    let r := strtoull_c cs
    if r.erange then ⟨false, r.val, r.rest⟩
    else if r.converted = false then ⟨false, 0, r.rest⟩
    else if (cs.dropWhile c_isspace).head? = some '-' then ⟨false, 0, r.rest⟩
    else ⟨true, r.val, r.rest⟩

/-- Modelled from the spec: `parse_uint_full` (also `util/cutils.c`, not
under `src/`) is `parse_uint` additionally requiring that the whole string
was consumed. -/
def parse_uint_full (cs : Option (List Char)) : Bool × Nat :=
  let r := parse_uint cs
  (r.ok && r.rest.isEmpty, r.val)

/-- Multiplier of a byte-size unit suffix character, `none` for
non-suffix characters. -/
def suffixMult (c : Char) : Option Nat :=
  if c = 'B' ∨ c = 'b' then some 1
  else if c = 'K' ∨ c = 'k' then some 1024
  else if c = 'M' ∨ c = 'm' then some 1048576
  else if c = 'G' ∨ c = 'g' then some 1073741824
  else if c = 'T' ∨ c = 't' then some 1099511627776
  else none

/-- Modelled from the spec: `strtosz_suffix` lives in the repository's util
sources (`util/cutils.c`), not under `src/`. It parses an integer or
fractional literal followed by an optional binary-multiplier unit suffix
(bytes by default) and returns the byte count, or a negative value when
nothing parses, the input is negative, or the result overflows the signed
64-bit range; the unparsed remainder is returned alongside. -/
def strtosz_suffix (cs : List Char) : Int × List Char :=
  let ws := cs.dropWhile c_isspace
  let sb : Bool × List Char :=
    match ws with
    | '-' :: r => (true, r)
    | '+' :: r => (false, r)
    | r => (false, r)
  let ip := takeDigits 10 sb.2 0 0
  let fp : Nat × Nat × List Char :=
    match ip.2.2 with
    | '.' :: r => takeDigits 10 r 0 0
    | r => (0, 0, r)
  if ip.2.1 = 0 ∧ fp.2.1 = 0 then (-1, cs)
  else
    let ms : Nat × List Char :=
      match fp.2.2 with
      | c :: r =>
        match suffixMult c with
        | some m => (m, r)
        | none => (1, c :: r)
      | [] => (1, [])
    let mag : Nat := ip.1 * ms.1 + fp.1 * ms.1 / 10 ^ fp.2.1
    let value : Int := if sb.1 then -(mag : Int) else (mag : Int)
    if value > INT64_MAX then (-1, ms.2) else (value, ms.2)

/-- C `opts_start_struct`: at the outermost call (depth 0), build the index
from every root occurrence (whose names are asserted distinct from `"id"`)
and inject the identifier as a synthetic `"id"` occurrence; nested calls
only bump the depth counter. -/
def opts_start_struct (s : OptsVisitor) : Res Unit :=
  if s.depth > 0 then .ok () { s with depth := (s.depth + 1) % UINT32_MOD }
  else if s.opts_root.any (fun o => o.name = "id") then .fatal
  else
    let idx0 := s.opts_root.foldl idxInsertOpt []
    let idx1 :=
      match s.opts_root_id with
      | none => idx0
      | some i => idxInsertOpt idx0 ⟨"id", some i⟩
    .ok () { s with depth := 1, unprocessed_opts := idx1 }

/-- C `opts_end_struct`: decrement the depth (C unsigned arithmetic); at
depth 0 report `InvalidParameter` for the name of the head occurrence of any
remaining queue (`g_hash_table_find`), then destroy the index either way. -/
def opts_end_struct (s : OptsVisitor) : Res Unit :=
  let d := (s.depth + (UINT32_MOD - 1)) % UINT32_MOD
  if d > 0 then .ok () { s with depth := d }
  else
    let s1 := { s with depth := d, unprocessed_opts := ([] : Index) }
    match s.unprocessed_opts with
    | [] => .ok () s1
    | (_, q) :: _ =>
      match q.head? with
      | some first => .err (.InvalidParameter first.name) s1
      | none => .fatal

/-- C `opts_start_list`: asserts no list is active, then looks the name up
(`lookup_distinct`), failing with `MissingParameter` when absent; on success
the queue becomes the repeated-options queue and the mode is `LM_STARTED`. -/
def opts_start_list (name : String) (s : OptsVisitor) : Res Unit :=
  if s.list_mode = .LM_NONE then
    match idxLookup s.unprocessed_opts name with
    | none => .err (.MissingParameter name) { s with repeated_opts := none }
    | some _ => .ok () { s with repeated_opts := some name, list_mode := .LM_STARTED }
  else .fatal

/-- The `LM_IN_PROGRESS` arm of `opts_next_list` (also reached by falling
through from an exhausted interval): pop the head occurrence of the repeated
queue; when the queue empties, remove the name from the index and end the
list (return `false`). -/
def opts_next_pop (s : OptsVisitor) : Res Bool :=
  let s1 := { s with list_mode := ListMode.LM_IN_PROGRESS }
  match s1.repeated_opts with
  | none => .fatal
  | some rname =>
    match idxLookup s1.unprocessed_opts rname with
    | none => .fatal
    | some [] => .fatal
    | some (opt :: rest) =>
      let idx1 := idxUpdate s1.unprocessed_opts rname rest
      if rest = [] then .ok false { s1 with unprocessed_opts := idxRemove idx1 opt.name }
      else .ok true { s1 with unprocessed_opts := idx1 }

/-- C `opts_next_list`: `LM_STARTED` exposes the queue head without popping;
an interval mode steps its counter while `next < limit` and otherwise falls
through to pop the carrying occurrence; `LM_IN_PROGRESS` pops; any other
mode aborts. `true` means an element is ready for a scalar decode. -/
def opts_next_list (s : OptsVisitor) : Res Bool :=
  match s.list_mode with
  | .LM_STARTED => .ok true { s with list_mode := .LM_IN_PROGRESS }
  | .LM_SIGNED_INTERVAL =>
    if s.range_next_s < s.range_limit_s then
      .ok true { s with range_next_s := s.range_next_s + 1 }
    else opts_next_pop s
  | .LM_UNSIGNED_INTERVAL =>
    if s.range_next_u < s.range_limit_u then
      .ok true { s with range_next_u := s.range_next_u + 1 }
    else opts_next_pop s
  | .LM_IN_PROGRESS => opts_next_pop s
  | .LM_NONE => .fatal

/-- C `opts_end_list`: asserts a list is active, then clears the repeated
queue reference and returns to `LM_NONE`. -/
def opts_end_list (s : OptsVisitor) : Res Unit :=
  if s.list_mode = .LM_NONE then .fatal
  else .ok () { s with repeated_opts := none, list_mode := .LM_NONE }

/-- C `lookup_scalar`: outside a list, the last occurrence of the name
(last-one-wins) or `MissingParameter`; inside `LM_IN_PROGRESS`, the current
head of the repeated queue; any other mode fails the assertion. -/
def lookup_scalar (name : String) (s : OptsVisitor) : Res QemuOpt :=
  if s.list_mode = .LM_NONE then
    match idxLookup s.unprocessed_opts name with
    | none => .err (.MissingParameter name) s
    | some q =>
      match q.getLast? with
      | some opt => .ok opt s
      | none => .silent s
  else if s.list_mode = .LM_IN_PROGRESS then
    match s.repeated_opts with
    | none => .silent s
    | some rname =>
      match idxLookup s.unprocessed_opts rname with
      | none => .fatal
      | some [] => .silent s
      | some (opt :: _) => .ok opt s
  else .fatal

/-- C `processed`: outside a list the whole name is retired from the index;
in `LM_IN_PROGRESS` consumption is deferred to `opts_next_list`; any other
mode fails the assertion. -/
def processed (name : String) (s : OptsVisitor) : Option OptsVisitor :=
  if s.list_mode = .LM_NONE then
    some { s with unprocessed_opts := idxRemove s.unprocessed_opts name }
  else if s.list_mode = .LM_IN_PROGRESS then some s
  else none

/-- Body of C `opts_type_str` after `lookup_scalar` succeeded: the
occurrence's value, or the empty string for a bare flag. -/
def opts_type_str_body (name : String) (opt : QemuOpt) (s : OptsVisitor) : Res String :=
  match processed name s with
  | some s2 => .ok (opt.str.getD "") s2
  | none => .fatal

/-- C `opts_type_str`. -/
def opts_type_str (name : String) (s : OptsVisitor) : Res String :=
  match lookup_scalar name s with
  | .ok opt s1 => opts_type_str_body name opt s1
  | .silent s1 => .silent s1
  | .err e s1 => .err e s1
  | .fatal => .fatal

/-- Body of C `opts_type_bool` after `lookup_scalar` succeeded: a bare flag
is `true`; otherwise the value must be one of `on`/`yes`/`y` (`true`) or
`off`/`no`/`n` (`false`). -/
def opts_type_bool_body (name : String) (opt : QemuOpt) (s : OptsVisitor) : Res Bool :=
  match opt.str with
  | some v =>
    if v = "on" ∨ v = "yes" ∨ v = "y" then
      match processed name s with
      | some s2 => .ok true s2
      | none => .fatal
    else if v = "off" ∨ v = "no" ∨ v = "n" then
      match processed name s with
      | some s2 => .ok false s2
      | none => .fatal
    else .err (.InvalidParameterValue opt.name "on|yes|y|off|no|n") s
  | none =>
    match processed name s with
    | some s2 => .ok true s2
    | none => .fatal

/-- C `opts_type_bool` (mimicking `qemu-option.c::parse_option_bool`). -/
def opts_type_bool (name : String) (s : OptsVisitor) : Res Bool :=
  match lookup_scalar name s with
  | .ok opt s1 => opts_type_bool_body name opt s1
  | .silent s1 => .silent s1
  | .err e s1 => .err e s1
  | .fatal => .fatal

/-- The error description used by `opts_type_int`. -/
def int_err_desc (lm : ListMode) : String :=
  if lm = .LM_NONE then "an int64 value" else "an int64 value or range"

/-- The signed range-acceptance test of `opts_type_int`, exactly as written
in the source: `val <= val2 && (val > INT64_MAX - OPTS_VISITOR_RANGE_MAX ||
val2 < val + OPTS_VISITOR_RANGE_MAX)`. -/
def signedRangeOk (val val2 : Int) : Prop :=
  val ≤ val2 ∧
    (val > INT64_MAX - OPTS_VISITOR_RANGE_MAX ∨ val2 < val + OPTS_VISITOR_RANGE_MAX)

instance (val val2 : Int) : Decidable (signedRangeOk val val2) := by
  unfold signedRangeOk
  exact inferInstance

/-- The unsigned range-acceptance test of `opts_type_uint64`, exactly as
written in the source: `val <= val2 && val2 - val < OPTS_VISITOR_RANGE_MAX`
(C unsigned subtraction, guarded by the preceding comparison). -/
def unsignedRangeOk (val val2 : Nat) : Prop :=
  val ≤ val2 ∧ val2 - val < OPTS_VISITOR_RANGE_MAX_N

instance (val val2 : Nat) : Decidable (unsignedRangeOk val val2) := by
  unfold unsignedRangeOk
  exact inferInstance

/-- Body of C `opts_type_int` after `lookup_scalar` succeeded: parse the
value (a null value reads as the empty string) as a signed integer; a full
parse succeeds and consumes; a strict prefix followed by `-` inside
`LM_IN_PROGRESS` attempts range entry; everything else is
`InvalidParameterValue`. -/
def opts_type_int_parse (name : String) (opt : QemuOpt) (s : OptsVisitor) : Res Int :=
  let str := (opt.str.getD "").toList
  let r := strtoll_c str
  if r.erange = false ∧ r.converted = true ∧ INT64_MIN ≤ r.val ∧ r.val ≤ INT64_MAX then
    if r.rest = [] then
      match processed name s with
      | some s2 => .ok r.val s2
      | none => .fatal
    else if r.rest.head? = some '-' ∧ s.list_mode = .LM_IN_PROGRESS then
      let r2 := strtoll_c r.rest.tail
      if r2.erange = false ∧ r2.converted = true ∧ r2.rest = [] ∧
         INT64_MIN ≤ r2.val ∧ r2.val ≤ INT64_MAX ∧ signedRangeOk r.val r2.val then
        .ok r.val { s with range_next_s := r.val, range_limit_s := r2.val,
                           list_mode := .LM_SIGNED_INTERVAL }
      else .err (.InvalidParameterValue opt.name (int_err_desc s.list_mode)) s
    else .err (.InvalidParameterValue opt.name (int_err_desc s.list_mode)) s
  else .err (.InvalidParameterValue opt.name (int_err_desc s.list_mode)) s

/-- C `opts_type_int`: in `LM_SIGNED_INTERVAL` the current interval element
is returned with no parsing or consumption; otherwise look up and parse. -/
def opts_type_int (name : String) (s : OptsVisitor) : Res Int :=
  if s.list_mode = .LM_SIGNED_INTERVAL then .ok s.range_next_s s
  else
    match lookup_scalar name s with
    | .ok opt s1 => opts_type_int_parse name opt s1
    | .silent s1 => .silent s1
    | .err e s1 => .err e s1
    | .fatal => .fatal

/-- The error description used by `opts_type_uint64`. -/
def uint_err_desc (lm : ListMode) : String :=
  if lm = .LM_NONE then "a uint64 value" else "a uint64 value or range"

/-- Body of C `opts_type_uint64` after `lookup_scalar` succeeded. Note the
source passes `opt->str` to `parse_uint` without the null-to-empty-string
substitution `opts_type_int` performs; `parse_uint` rejects a null string. -/
def opts_type_uint64_parse (name : String) (opt : QemuOpt) (s : OptsVisitor) : Res Nat :=
  let str := opt.str.map String.toList
  let r := parse_uint str
  if r.ok = true ∧ r.val ≤ UINT64_MAX_N then
    if r.rest = [] then
      match processed name s with
      | some s2 => .ok r.val s2
      | none => .fatal
    else if r.rest.head? = some '-' ∧ s.list_mode = .LM_IN_PROGRESS then
      let pf := parse_uint_full (some r.rest.tail)
      if pf.1 = true ∧ pf.2 ≤ UINT64_MAX_N ∧ unsignedRangeOk r.val pf.2 then
        .ok r.val { s with range_next_u := r.val, range_limit_u := pf.2,
                           list_mode := .LM_UNSIGNED_INTERVAL }
      else .err (.InvalidParameterValue opt.name (uint_err_desc s.list_mode)) s
    else .err (.InvalidParameterValue opt.name (uint_err_desc s.list_mode)) s
  else .err (.InvalidParameterValue opt.name (uint_err_desc s.list_mode)) s

/-- C `opts_type_uint64`: the unsigned mirror of `opts_type_int`. -/
def opts_type_uint64 (name : String) (s : OptsVisitor) : Res Nat :=
  if s.list_mode = .LM_UNSIGNED_INTERVAL then .ok s.range_next_u s
  else
    match lookup_scalar name s with
    | .ok opt s1 => opts_type_uint64_parse name opt s1
    | .silent s1 => .silent s1
    | .err e s1 => .err e s1
    | .fatal => .fatal

/-- Body of C `opts_type_size` after `lookup_scalar` succeeded: apply
`strtosz_suffix`; a negative result or trailing characters fail, otherwise
the value is stored and the name consumed. -/
def opts_type_size_body (name : String) (opt : QemuOpt) (s : OptsVisitor) : Res Nat :=
  if (strtosz_suffix ((opt.str.getD "").toList)).1 < 0 ∨
     (strtosz_suffix ((opt.str.getD "").toList)).2 ≠ [] then
    .err (.InvalidParameterValue opt.name
            "a size value representible as a non-negative int64") s
  else
    match processed name s with
    | some s2 => .ok (strtosz_suffix ((opt.str.getD "").toList)).1.toNat s2
    | none => .fatal

/-- C `opts_type_size`. -/
def opts_type_size (name : String) (s : OptsVisitor) : Res Nat :=
  match lookup_scalar name s with
  | .ok opt s1 => opts_type_size_body name opt s1
  | .silent s1 => .silent s1
  | .err e s1 => .err e s1
  | .fatal => .fatal

/-- C `opts_start_optional`: asserts no list is active; presence is
non-consuming index membership (the error pointer is null, so an absent name
records no error). -/
def opts_start_optional (name : String) (s : OptsVisitor) : Res Bool :=
  if s.list_mode = .LM_NONE then .ok (idxLookup s.unprocessed_opts name).isSome s
  else .fatal

/-- The schema-driven caller loop for decoding a list of signed integers:
`opts_next_list` until it reports exhaustion, decoding each ready element
with `opts_type_int`, then `opts_end_list` (fuel-bounded for totality). -/
def visitIntListAux : Nat → String → OptsVisitor → List Int → Res (List Int)
  | 0, _, _, _ => .fatal
  | fuel + 1, name, s, acc =>
    match opts_next_list s with
    | .ok true s1 =>
      match opts_type_int name s1 with
      | .ok v s2 => visitIntListAux fuel name s2 (acc ++ [v])
      | .silent t => .silent t
      | .err e t => .err e t
      | .fatal => .fatal
    | .ok false s1 =>
      match opts_end_list s1 with
      | .ok _ s2 => .ok acc s2
      | .silent t => .silent t
      | .err e t => .err e t
      | .fatal => .fatal
    | .silent t => .silent t
    | .err e t => .err e t
    | .fatal => .fatal

/-- Opening move of the caller loop: `opts_start_list`, then the element
loop. -/
def visitIntList (fuel : Nat) (name : String) (s : OptsVisitor) : Res (List Int) :=
  match opts_start_list name s with
  | .ok _ s1 => visitIntListAux fuel name s1 []
  | .silent t => .silent t
  | .err e t => .err e t
  | .fatal => .fatal

/-- Well-formedness of the unprocessed index: keys are distinct (it models a
hash table), every stored queue is non-empty, and every queued occurrence
carries the name it is filed under. -/
def IndexWF (idx : Index) : Prop :=
  (idx.map Prod.fst).Nodup ∧ ∀ p ∈ idx, p.2 ≠ [] ∧ ∀ o ∈ p.2, o.name = p.1

instance (idx : Index) : Decidable (IndexWF idx) := by
  unfold IndexWF
  exact inferInstance

/-- Convenience constructor for concrete visitor states. -/
def mkVisitor (opts : List QemuOpt) (d : Nat) (idx : Index) (lm : ListMode)
    (rep : Option String) : OptsVisitor :=
  { opts_root := opts, opts_root_id := none, depth := d, unprocessed_opts := idx,
    list_mode := lm, repeated_opts := rep,
    range_next_s := 0, range_limit_s := 0, range_next_u := 0, range_limit_u := 0 }

/-- The single occurrence of the range-expansion scenario. -/
def c1Opt : QemuOpt := ⟨"nums", some "3-7"⟩

/-- Fresh session over the source `[("nums", "3-7")]`. -/
def c1Root : OptsVisitor := mkVisitor [c1Opt] 0 [] .LM_NONE none

/-- State after the outermost `opts_start_struct`. -/
def c1S1 : OptsVisitor :=
  { c1Root with depth := 1, unprocessed_opts := [("nums", [c1Opt])] }

/-- State after `opts_start_list "nums"`. -/
def c1SL : OptsVisitor :=
  { c1S1 with repeated_opts := some "nums", list_mode := .LM_STARTED }

/-- State after the first `opts_next_list`. -/
def c1P0 : OptsVisitor := { c1SL with list_mode := .LM_IN_PROGRESS }

/-- Interval states during range expansion, by counter value. -/
def c1Rn (k : Int) : OptsVisitor :=
  { c1P0 with list_mode := .LM_SIGNED_INTERVAL, range_next_s := k, range_limit_s := 7 }

/-- State after the final `opts_next_list` retires the occurrence. -/
def c1Done : OptsVisitor :=
  { c1P0 with unprocessed_opts := [], range_next_s := 7, range_limit_s := 7 }

/-- State after the closing `opts_end_list`. -/
def c1Fin : OptsVisitor := { c1Done with repeated_opts := none, list_mode := .LM_NONE }

/-- Witness state for the last-one-wins scalar decode. -/
def c2S : OptsVisitor :=
  mkVisitor [⟨"f", some "a"⟩, ⟨"f", some "b"⟩] 1
    [("f", [⟨"f", some "a"⟩, ⟨"f", some "b"⟩])] .LM_NONE none

/-- Witness state with one leftover (never decoded) name. -/
def c3S : OptsVisitor :=
  mkVisitor [⟨"extra", some "1"⟩] 1 [("extra", [⟨"extra", some "1"⟩])] .LM_NONE none

/-- List-context state holding the descending range literal `"5-3"`. -/
def c4S : OptsVisitor :=
  mkVisitor [⟨"count", some "5-3"⟩] 1 [("count", [⟨"count", some "5-3"⟩])]
    .LM_IN_PROGRESS (some "count")

/-- Counterexample state: `endStruct` reached with a list still active. -/
def c5S : OptsVisitor := mkVisitor [] 1 [] .LM_STARTED (some "xs")

/-- Witness state for the amended `endStruct`-during-list description. -/
def c5W : OptsVisitor :=
  mkVisitor [⟨"xs", some "1"⟩] 1 [("xs", [⟨"xs", some "1"⟩])] .LM_IN_PROGRESS (some "xs")

/-- Witness state for the boolean decoder. -/
def c7S : OptsVisitor :=
  mkVisitor [⟨"flag", some "on"⟩] 1 [("flag", [⟨"flag", some "on"⟩])] .LM_NONE none

/-- Witness state: a bare flag decoded as an unsigned integer. -/
def c6S : OptsVisitor :=
  mkVisitor [⟨"flag", none⟩] 1 [("flag", [⟨"flag", none⟩])] .LM_NONE none

/-- Witness state: a range literal decoded as a scalar. -/
def c8S : OptsVisitor :=
  mkVisitor [⟨"n", some "3-7"⟩] 1 [("n", [⟨"n", some "3-7"⟩])] .LM_NONE none

/-- Witness state: a boolean field with an unparseable value. -/
def c10S : OptsVisitor :=
  mkVisitor [⟨"b", some "maybe"⟩] 1 [("b", [⟨"b", some "maybe"⟩])] .LM_NONE none

/-- Witness state for the index invariant, with two pending names. -/
def c9S : OptsVisitor :=
  mkVisitor [⟨"a", some "1"⟩, ⟨"b", some "2"⟩] 1
    [("a", [⟨"a", some "1"⟩]), ("b", [⟨"b", some "2"⟩])] .LM_NONE none

/-- Post state of decoding `"a"` as a string from `c9S`. -/
def c9Post : OptsVisitor := { c9S with unprocessed_opts := [("b", [⟨"b", some "2"⟩])] }

lemma idxLookup_idxRemove_self (idx : Index) (name : String) :
    idxLookup (idxRemove idx name) name = none := by
  induction idx with
  | nil => simp [idxRemove, idxLookup]
  | cons p rest ih =>
    obtain ⟨n, q⟩ := p
    by_cases h : n = name
    · simp [idxRemove, h, ih]
    · simp [idxRemove, idxLookup, h, ih]

lemma idxLookup_mem (idx : Index) (name : String) (q : List QemuOpt)
    (h : idxLookup idx name = some q) : (name, q) ∈ idx := by
  induction idx with
  | nil => simp [idxLookup] at h
  | cons p rest ih =>
    obtain ⟨n, p2⟩ := p
    by_cases hn : n = name
    · subst hn
      simp [idxLookup] at h
      subst h
      exact List.mem_cons_self _ _
    · simp [idxLookup, hn] at h
      exact List.mem_cons_of_mem _ (ih h)

lemma opts_end_struct_depth1 (s : OptsVisitor) (hd : s.depth = 1)
    (hwf : IndexWF s.unprocessed_opts) :
    (s.unprocessed_opts = [] →
      opts_end_struct s = .ok () { s with depth := 0, unprocessed_opts := [] }) ∧
    (∀ n q rest, s.unprocessed_opts = (n, q) :: rest →
      idxLookup s.unprocessed_opts n = some q ∧
      opts_end_struct s =
        .err (.InvalidParameter n) { s with depth := 0, unprocessed_opts := [] }) := by
  constructor
  · intro he
    simp [opts_end_struct, hd, UINT32_MOD, he]
  · intro n q rest hidx
    obtain ⟨hnodup, hall⟩ := hwf
    obtain ⟨hqne, hnames⟩ := hall (n, q) (by rw [hidx]; exact List.mem_cons_self _ _)
    obtain ⟨o, q2, rfl⟩ : ∃ o q2, q = o :: q2 := by
      cases q with
      | nil => exact absurd rfl hqne
      | cons o q2 => exact ⟨o, q2, rfl⟩
    have hname : o.name = n := hnames o (List.mem_cons_self _ _)
    refine ⟨by rw [hidx]; simp [idxLookup], ?_⟩
    simp [opts_end_struct, hd, UINT32_MOD, hidx, hname]

/-- C1: a list decode of `"nums"` whose single occurrence carries `"3-7"`
yields exactly the elements 3, 4, 5, 6, 7 in order; the raw occurrence stays
in the queue while the interval is walked (entering the range state does not
pop it) and is popped exactly once, by the `opts_next_list` call that finds
the counter at the limit. -/
theorem c1_range_expansion_exact_sequence :
  opts_start_struct c1Root = .ok () c1S1 ∧
  opts_start_list "nums" c1S1 = .ok () c1SL ∧
  opts_next_list c1SL = .ok true c1P0 ∧
  opts_type_int "nums" c1P0 = .ok 3 (c1Rn 3) ∧
  idxLookup (c1Rn 3).unprocessed_opts "nums" = some [c1Opt] ∧
  opts_next_list (c1Rn 3) = .ok true (c1Rn 4) ∧
  opts_type_int "nums" (c1Rn 4) = .ok 4 (c1Rn 4) ∧
  opts_next_list (c1Rn 4) = .ok true (c1Rn 5) ∧
  opts_type_int "nums" (c1Rn 5) = .ok 5 (c1Rn 5) ∧
  opts_next_list (c1Rn 5) = .ok true (c1Rn 6) ∧
  opts_type_int "nums" (c1Rn 6) = .ok 6 (c1Rn 6) ∧
  opts_next_list (c1Rn 6) = .ok true (c1Rn 7) ∧
  opts_type_int "nums" (c1Rn 7) = .ok 7 (c1Rn 7) ∧
  idxLookup (c1Rn 7).unprocessed_opts "nums" = some [c1Opt] ∧
  opts_next_list (c1Rn 7) = .ok false c1Done ∧
  idxLookup c1Done.unprocessed_opts "nums" = none ∧
  visitIntList 16 "nums" c1S1 = .ok [3, 4, 5, 6, 7] c1Fin := by decide

/-- C3: at the outermost `opts_end_struct` (depth returning to 0), an empty
index means success, and a non-empty index means failure with
`InvalidParameter` carrying a name that is still present in the index (the
model reports the first remaining entry). -/
theorem c3_end_struct_leftover_check (s : OptsVisitor) (hd : s.depth = 1)
    (hwf : IndexWF s.unprocessed_opts) :
    (s.unprocessed_opts = [] →
      opts_end_struct s = .ok () { s with depth := 0, unprocessed_opts := [] }) ∧
    (∀ n q rest, s.unprocessed_opts = (n, q) :: rest →
      idxLookup s.unprocessed_opts n = some q ∧
      opts_end_struct s =
        .err (.InvalidParameter n) { s with depth := 0, unprocessed_opts := [] }) :=
  opts_end_struct_depth1 s hd hwf

/-- Witness for C3 at a concrete leftover name. -/
theorem c3_end_struct_leftover_check_witness :
  idxLookup c3S.unprocessed_opts "extra" = some [⟨"extra", some "1"⟩] ∧
  opts_end_struct c3S =
    .err (.InvalidParameter "extra") { c3S with depth := 0, unprocessed_opts := [] } :=
  (c3_end_struct_leftover_check c3S rfl (by decide)).2 "extra" [⟨"extra", some "1"⟩] [] rfl

/-- C5 counterexample: with a list still active (`LM_STARTED`), the
outermost `opts_end_struct` does not assert or fault; it returns normally
after performing the ordinary teardown. -/
theorem c5_counterexample_no_assert :
  opts_end_struct c5S = .ok () { c5S with depth := 0 } ∧
  opts_end_struct c5S ≠ .fatal := by decide

/-- C5 (amended): `opts_end_struct` performs no list-state check. Called at
depth 1 with a list active it never faults: it runs the usual leftover check
and index teardown, leaving `list_mode` untouched. -/
theorem c5_end_struct_ignores_active_list (s : OptsVisitor) (hd : s.depth = 1)
    (hlm : s.list_mode ≠ .LM_NONE) (hwf : IndexWF s.unprocessed_opts) :
    opts_end_struct s ≠ .fatal ∧
    (s.unprocessed_opts = [] →
      opts_end_struct s = .ok () { s with depth := 0, unprocessed_opts := [] }) ∧
    (∀ n q rest, s.unprocessed_opts = (n, q) :: rest →
      opts_end_struct s =
        .err (.InvalidParameter n) { s with depth := 0, unprocessed_opts := [] }) := by
  obtain ⟨hemp, hleft⟩ := opts_end_struct_depth1 s hd hwf
  refine ⟨?_, hemp, fun n q rest hidx => (hleft n q rest hidx).2⟩
  cases hcase : s.unprocessed_opts with
  | nil => rw [hemp hcase]; intro h; cases h
  | cons p rest =>
    obtain ⟨n, q⟩ := p
    rw [(hleft n q rest hcase).2]
    intro h
    cases h

/-- Witness for the amended C5 at a concrete in-progress list state. -/
theorem c5_end_struct_ignores_active_list_witness :
  opts_end_struct c5W ≠ .fatal ∧
  opts_end_struct c5W =
    .err (.InvalidParameter "xs") { c5W with depth := 0, unprocessed_opts := [] } :=
  ⟨(c5_end_struct_ignores_active_list c5W rfl (by decide) (by decide)).1,
   (c5_end_struct_ignores_active_list c5W rfl (by decide) (by decide)).2.2
     "xs" [⟨"xs", some "1"⟩] [] rfl⟩

/-- C2: outside list mode, a scalar decode of a present name reads the last
occurrence of the name's queue (last-one-wins), a successful decode removes
the name from the index entirely, and a second decode of the same name
without an intervening `beginStruct` fails with `MissingParameter`. -/
theorem c2_scalar_last_one_wins (s : OptsVisitor) (name : String)
    (q : List QemuOpt) (opt : QemuOpt)
    (hmode : s.list_mode = .LM_NONE)
    (hq : idxLookup s.unprocessed_opts name = some q)
    (hlast : q.getLast? = some opt) :
    opts_type_str name s =
      .ok (opt.str.getD "") { s with unprocessed_opts := idxRemove s.unprocessed_opts name } ∧
    idxLookup (idxRemove s.unprocessed_opts name) name = none ∧
    opts_type_str name { s with unprocessed_opts := idxRemove s.unprocessed_opts name } =
      .err (.MissingParameter name)
        { s with unprocessed_opts := idxRemove s.unprocessed_opts name } := by
  refine ⟨?_, idxLookup_idxRemove_self _ _, ?_⟩
  · simp [opts_type_str, opts_type_str_body, lookup_scalar, hmode, hq, hlast, processed]
  · simp [opts_type_str, lookup_scalar, hmode, idxLookup_idxRemove_self]

/-- Witness for C2 over a twice-provided scalar field. -/
theorem c2_scalar_last_one_wins_witness :
  opts_type_str "f" c2S =
    .ok ((some "b").getD "") { c2S with unprocessed_opts := idxRemove c2S.unprocessed_opts "f" } ∧
  idxLookup (idxRemove c2S.unprocessed_opts "f") "f" = none ∧
  opts_type_str "f" { c2S with unprocessed_opts := idxRemove c2S.unprocessed_opts "f" } =
    .err (.MissingParameter "f")
      { c2S with unprocessed_opts := idxRemove c2S.unprocessed_opts "f" } :=
  c2_scalar_last_one_wins c2S "f" [⟨"f", some "a"⟩, ⟨"f", some "b"⟩] ⟨"f", some "b"⟩
    rfl (by decide) (by decide)


/-- C7: decoding an occurrence as boolean maps a missing value and the
values `on`/`yes`/`y` to `true`, the values `off`/`no`/`n` to `false`, and
fails with `InvalidParameterValue(name, "on|yes|y|off|no|n")` on anything
else, producing no value and consuming nothing. -/
theorem c7_bool_decode (s : OptsVisitor) (name : String)
    (q : List QemuOpt) (opt : QemuOpt)
    (hmode : s.list_mode = .LM_NONE)
    (hq : idxLookup s.unprocessed_opts name = some q)
    (hlast : q.getLast? = some opt) :
    ((opt.str = none ∨ opt.str = some "on" ∨ opt.str = some "yes" ∨ opt.str = some "y") →
      opts_type_bool name s =
        .ok true { s with unprocessed_opts := idxRemove s.unprocessed_opts name }) ∧
    ((opt.str = some "off" ∨ opt.str = some "no" ∨ opt.str = some "n") →
      opts_type_bool name s =
        .ok false { s with unprocessed_opts := idxRemove s.unprocessed_opts name }) ∧
    (∀ v, opt.str = some v →
      v ≠ "on" → v ≠ "yes" → v ≠ "y" → v ≠ "off" → v ≠ "no" → v ≠ "n" →
      opts_type_bool name s =
        .err (.InvalidParameterValue opt.name "on|yes|y|off|no|n") s) := by
  refine ⟨?_, ?_, ?_⟩
  · rintro (h | h | h | h) <;>
      simp [opts_type_bool, opts_type_bool_body, lookup_scalar, hmode, hq, hlast, processed, h]
  · rintro (h | h | h) <;>
      simp [opts_type_bool, opts_type_bool_body, lookup_scalar, hmode, hq, hlast, processed, h]
  · intro v hv h1 h2 h3 h4 h5 h6
    simp [opts_type_bool, opts_type_bool_body, lookup_scalar, hmode, hq, hlast,
          processed, hv, h1, h2, h3, h4, h5, h6]

/-- Witness for C7 at the value `on`. -/
theorem c7_bool_decode_witness :
  opts_type_bool "flag" c7S =
    .ok true { c7S with unprocessed_opts := idxRemove c7S.unprocessed_opts "flag" } :=
  (c7_bool_decode c7S "flag" [⟨"flag", some "on"⟩] ⟨"flag", some "on"⟩
    rfl (by decide) (by decide)).1 (Or.inr (Or.inl rfl))



lemma strtoll_c_nil : strtoll_c ([] : List Char) = ⟨0, false, [], false⟩ := by
  decide

lemma strtoll_c_37 : strtoll_c ['3', '-', '7'] = ⟨3, false, ['-', '7'], true⟩ := by
  decide

lemma lookup_scalar_state (name : String) (s t : OptsVisitor)
    (h : resState (lookup_scalar name s) = some t) : t = s := by
  unfold lookup_scalar at h
  repeat' split at h
  all_goals simp [resState] at h
  all_goals exact h.symm

/-- C6: `opts_type_uint64` handles an occurrence with no value the same way
`opts_type_int` does — the decode fails with `InvalidParameterValue` and no
stray read occurs (`parse_uint` rejects the null string). -/
theorem c6_uint64_bare_flag_mirrors_int (s : OptsVisitor) (name : String)
    (q : List QemuOpt) (opt : QemuOpt)
    (hmode : s.list_mode = .LM_NONE)
    (hq : idxLookup s.unprocessed_opts name = some q)
    (hlast : q.getLast? = some opt) (hstr : opt.str = none) :
    opts_type_uint64 name s = .err (.InvalidParameterValue opt.name "a uint64 value") s ∧
    opts_type_int name s = .err (.InvalidParameterValue opt.name "an int64 value") s := by
  constructor
  · simp [opts_type_uint64, opts_type_uint64_parse, lookup_scalar, hmode, hq, hlast,
          hstr, parse_uint, uint_err_desc]
  · simp [opts_type_int, opts_type_int_parse, lookup_scalar, hmode, hq, hlast,
          hstr, strtoll_c_nil, int_err_desc]

/-- Witness for C6 at a concrete bare flag. -/
theorem c6_uint64_bare_flag_mirrors_int_witness :
  opts_type_uint64 "flag" c6S =
    .err (.InvalidParameterValue "flag" "a uint64 value") c6S ∧
  opts_type_int "flag" c6S =
    .err (.InvalidParameterValue "flag" "an int64 value") c6S :=
  c6_uint64_bare_flag_mirrors_int c6S "flag" [⟨"flag", none⟩] ⟨"flag", none⟩
    rfl (by decide) (by decide) rfl

lemma processed_none_mode (name : String) (s : OptsVisitor)
    (hm : s.list_mode = .LM_NONE) :
    processed name s =
      some { s with unprocessed_opts := idxRemove s.unprocessed_opts name } := by
  simp [processed, hm]

lemma opts_type_int_parse_mode_none (name : String) (opt : QemuOpt) (s t : OptsVisitor)
    (hm : s.list_mode = .LM_NONE)
    (ht : resState (opts_type_int_parse name opt s) = some t) : t.list_mode = .LM_NONE := by
  unfold opts_type_int_parse at ht
  rw [processed_none_mode name s hm] at ht
  simp only [hm] at ht
  repeat' split at ht
  all_goals simp_all [resState]
  all_goals (subst ht; simp)

/-- C8: decoding a scalar signed-integer field (outside any list) whose value
is the range literal `"3-7"` fails with `InvalidParameterValue(name, "an
int64 value")`; more generally, outside list context `opts_type_int` never
enters the signed-range state, so ranges are permitted only in lists. -/
theorem c8_range_rejected_outside_list (s : OptsVisitor) (name : String)
    (q : List QemuOpt) (opt : QemuOpt)
    (hmode : s.list_mode = .LM_NONE)
    (hq : idxLookup s.unprocessed_opts name = some q)
    (hlast : q.getLast? = some opt) (hstr : opt.str = some "3-7") :
    opts_type_int name s = .err (.InvalidParameterValue opt.name "an int64 value") s ∧
    (∀ (s2 : OptsVisitor) (name2 : String) (t : OptsVisitor),
      s2.list_mode = .LM_NONE → resState (opts_type_int name2 s2) = some t →
      t.list_mode = .LM_NONE) := by
  constructor
  · simp [opts_type_int, opts_type_int_parse, lookup_scalar, hmode, hq, hlast,
          hstr, strtoll_c_37, int_err_desc]
  · intro s2 name2 t h2 ht
    unfold opts_type_int at ht
    rw [h2] at ht
    simp only [reduceCtorEq, if_false] at ht
    cases hl : lookup_scalar name2 s2 <;> rw [hl] at ht
    case ok opt2 s1 =>
      have hs1 : s1 = s2 := lookup_scalar_state name2 s2 s1 (by rw [hl]; rfl)
      subst hs1
      exact opts_type_int_parse_mode_none name2 opt2 s1 t h2 ht
    case silent s1 =>
      have hs1 : s1 = s2 := lookup_scalar_state name2 s2 s1 (by rw [hl]; rfl)
      simp [resState] at ht
      rw [← ht, hs1, h2]
    case err e s1 =>
      have hs1 : s1 = s2 := lookup_scalar_state name2 s2 s1 (by rw [hl]; rfl)
      simp [resState] at ht
      rw [← ht, hs1, h2]
    case fatal => simp [resState] at ht

/-- Witness for C8 at a concrete scalar range literal. -/
theorem c8_range_rejected_outside_list_witness :
  opts_type_int "n" c8S = .err (.InvalidParameterValue "n" "an int64 value") c8S :=
  (c8_range_rejected_outside_list c8S "n" [⟨"n", some "3-7"⟩] ⟨"n", some "3-7"⟩
    rfl (by decide) (by decide) rfl).1

/-- C4: the range-acceptance condition is bounds-parse plus `lower ≤ upper`
plus `span < OPTS_VISITOR_RANGE_MAX`; the signed test (written with the
overflow-avoiding comparison against `INT64_MAX`) and the unsigned test
accept exactly the same condition, the signed test's arithmetic stays inside
the int64 domain, and the unsigned-list input `"5-3"` fails with
`InvalidParameterValue`. -/
theorem c4_range_cap_signed_unsigned (val val2 : Int) (u u2 : Nat)
    (h1 : INT64_MIN ≤ val) (h2 : val ≤ INT64_MAX)
    (h3 : INT64_MIN ≤ val2) (h4 : val2 ≤ INT64_MAX) :
    (signedRangeOk val val2 ↔ val ≤ val2 ∧ val2 - val < OPTS_VISITOR_RANGE_MAX) ∧
    (unsignedRangeOk u u2 ↔ u ≤ u2 ∧ (u2 : Int) - (u : Int) < OPTS_VISITOR_RANGE_MAX) ∧
    (INT64_MIN ≤ INT64_MAX - OPTS_VISITOR_RANGE_MAX ∧
      (val ≤ INT64_MAX - OPTS_VISITOR_RANGE_MAX →
        INT64_MIN ≤ val + OPTS_VISITOR_RANGE_MAX ∧
        val + OPTS_VISITOR_RANGE_MAX ≤ INT64_MAX)) ∧
    opts_type_uint64 "count" c4S =
      .err (.InvalidParameterValue "count" "a uint64 value or range") c4S := by
  refine ⟨?_, ?_, ?_, by decide⟩
  · unfold signedRangeOk INT64_MIN INT64_MAX OPTS_VISITOR_RANGE_MAX at *
    omega
  · unfold unsignedRangeOk OPTS_VISITOR_RANGE_MAX OPTS_VISITOR_RANGE_MAX_N
    omega
  · unfold INT64_MIN INT64_MAX OPTS_VISITOR_RANGE_MAX at *
    omega

/-- Witness for C4 at the bounds 3, 7 (signed) and 10, 20 (unsigned). -/
theorem c4_range_cap_signed_unsigned_witness :
  (INT64_MIN ≤ (3 : Int) ∧ (3 : Int) ≤ INT64_MAX ∧
   INT64_MIN ≤ (7 : Int) ∧ (7 : Int) ≤ INT64_MAX) ∧
  (signedRangeOk 3 7 ↔ (3 : Int) ≤ 7 ∧ 7 - 3 < OPTS_VISITOR_RANGE_MAX) ∧
  (unsignedRangeOk 10 20 ↔
    10 ≤ 20 ∧ ((20 : Nat) : Int) - ((10 : Nat) : Int) < OPTS_VISITOR_RANGE_MAX) ∧
  (INT64_MIN ≤ INT64_MAX - OPTS_VISITOR_RANGE_MAX ∧
    ((3 : Int) ≤ INT64_MAX - OPTS_VISITOR_RANGE_MAX →
      INT64_MIN ≤ 3 + OPTS_VISITOR_RANGE_MAX ∧
      3 + OPTS_VISITOR_RANGE_MAX ≤ INT64_MAX)) ∧
  opts_type_uint64 "count" c4S =
    .err (.InvalidParameterValue "count" "a uint64 value or range") c4S := by
  refine ⟨⟨by decide, by decide, by decide, by decide⟩, ?_⟩
  exact c4_range_cap_signed_unsigned 3 7 10 20 (by decide) (by decide) (by decide) (by decide)


lemma opts_type_int_parse_err_state (name : String) (opt : QemuOpt) (s t : OptsVisitor)
    (e : VisitorError) (h : opts_type_int_parse name opt s = .err e t) : t = s := by
  simp only [opts_type_int_parse] at h
  repeat' split at h
  all_goals simp_all

lemma opts_type_uint64_parse_err_state (name : String) (opt : QemuOpt) (s t : OptsVisitor)
    (e : VisitorError) (h : opts_type_uint64_parse name opt s = .err e t) : t = s := by
  simp only [opts_type_uint64_parse] at h
  repeat' split at h
  all_goals simp_all

lemma opts_type_bool_body_err_state (name : String) (opt : QemuOpt) (s t : OptsVisitor)
    (e : VisitorError) (h : opts_type_bool_body name opt s = .err e t) : t = s := by
  simp only [opts_type_bool_body] at h
  repeat' split at h
  all_goals simp_all

lemma opts_type_bool_err_state (name : String) (s t : OptsVisitor) (e : VisitorError)
    (h : opts_type_bool name s = .err e t) : t = s := by
  unfold opts_type_bool at h
  cases hl : lookup_scalar name s <;> rw [hl] at h
  case ok opt s1 =>
    have hs1 : s1 = s := lookup_scalar_state name s s1 (by rw [hl]; rfl)
    exact hs1 ▸ opts_type_bool_body_err_state name opt s1 t e h
  case silent s1 => simp_all
  case err e2 s1 =>
    have hs1 : s1 = s := lookup_scalar_state name s s1 (by rw [hl]; rfl)
    injection h with h1 h2
    rw [← h2, hs1]
  case fatal => simp_all

lemma opts_type_int_err_state (name : String) (s t : OptsVisitor) (e : VisitorError)
    (h : opts_type_int name s = .err e t) : t = s := by
  unfold opts_type_int at h
  split at h
  · simp_all
  · cases hl : lookup_scalar name s <;> rw [hl] at h
    case ok opt s1 =>
      have hs1 : s1 = s := lookup_scalar_state name s s1 (by rw [hl]; rfl)
      exact hs1 ▸ opts_type_int_parse_err_state name opt s1 t e h
    case silent s1 => simp_all
    case err e2 s1 =>
      have hs1 : s1 = s := lookup_scalar_state name s s1 (by rw [hl]; rfl)
      injection h with h1 h2
      rw [← h2, hs1]
    case fatal => simp_all

lemma opts_type_uint64_err_state (name : String) (s t : OptsVisitor) (e : VisitorError)
    (h : opts_type_uint64 name s = .err e t) : t = s := by
  unfold opts_type_uint64 at h
  split at h
  · simp_all
  · cases hl : lookup_scalar name s <;> rw [hl] at h
    case ok opt s1 =>
      have hs1 : s1 = s := lookup_scalar_state name s s1 (by rw [hl]; rfl)
      exact hs1 ▸ opts_type_uint64_parse_err_state name opt s1 t e h
    case silent s1 => simp_all
    case err e2 s1 =>
      have hs1 : s1 = s := lookup_scalar_state name s s1 (by rw [hl]; rfl)
      injection h with h1 h2
      rw [← h2, hs1]
    case fatal => simp_all

lemma opts_type_size_body_err_state (name : String) (opt : QemuOpt) (s t : OptsVisitor)
    (e : VisitorError) (h : opts_type_size_body name opt s = .err e t) : t = s := by
  simp only [opts_type_size_body] at h
  repeat' split at h
  all_goals simp_all

lemma opts_type_size_err_state (name : String) (s t : OptsVisitor) (e : VisitorError)
    (h : opts_type_size name s = .err e t) : t = s := by
  unfold opts_type_size at h
  cases hl : lookup_scalar name s <;> rw [hl] at h
  case ok opt s1 =>
    have hs1 : s1 = s := lookup_scalar_state name s s1 (by rw [hl]; rfl)
    exact hs1 ▸ opts_type_size_body_err_state name opt s1 t e h
  case silent s1 => simp_all
  case err e2 s1 =>
    have hs1 : s1 = s := lookup_scalar_state name s s1 (by rw [hl]; rfl)
    injection h with h1 h2
    rw [← h2, hs1]
  case fatal => simp_all

/-- C10: whenever `opts_type_bool`, `opts_type_int`, `opts_type_uint64` or
`opts_type_size` fails with `InvalidParameterValue`, the visitor state (the
index, the failing name's queue, and the list/range state) is exactly the
pre-call state: consumption happens only after a successful parse. -/
theorem c10_scalar_decoder_error_atomicity (s : OptsVisitor) (name : String) :
    (∀ nm d t, opts_type_bool name s = .err (.InvalidParameterValue nm d) t → t = s) ∧
    (∀ nm d t, opts_type_int name s = .err (.InvalidParameterValue nm d) t → t = s) ∧
    (∀ nm d t, opts_type_uint64 name s = .err (.InvalidParameterValue nm d) t → t = s) ∧
    (∀ nm d t, opts_type_size name s = .err (.InvalidParameterValue nm d) t → t = s) :=
  ⟨fun nm d t h => opts_type_bool_err_state name s t (.InvalidParameterValue nm d) h,
   fun nm d t h => opts_type_int_err_state name s t (.InvalidParameterValue nm d) h,
   fun nm d t h => opts_type_uint64_err_state name s t (.InvalidParameterValue nm d) h,
   fun nm d t h => opts_type_size_err_state name s t (.InvalidParameterValue nm d) h⟩

/-- Witness for C10: a concrete failing boolean decode leaves the concrete
state untouched. -/
theorem c10_scalar_decoder_error_atomicity_witness :
  opts_type_bool "b" c10S = .err (.InvalidParameterValue "b" "on|yes|y|off|no|n") c10S ∧
  c10S = c10S :=
  ⟨by decide,
   (c10_scalar_decoder_error_atomicity c10S "b").1 "b" "on|yes|y|off|no|n" c10S (by decide)⟩

lemma idxRemove_sublist (idx : Index) (name : String) :
    List.Sublist (idxRemove idx name) idx := by
  induction idx with
  | nil => simp [idxRemove]
  | cons p rest ih =>
    obtain ⟨n, q⟩ := p
    by_cases h : n = name
    · rw [idxRemove, if_pos h]
      exact ih.cons _
    · rw [idxRemove, if_neg h]
      exact ih.cons₂ _

lemma wf_idxRemove (idx : Index) (name : String) (h : IndexWF idx) :
    IndexWF (idxRemove idx name) := by
  obtain ⟨hnodup, hall⟩ := h
  constructor
  · exact List.Nodup.sublist ((idxRemove_sublist idx name).map Prod.fst) hnodup
  · intro p hp
    exact hall p ((idxRemove_sublist idx name).subset hp)

lemma idxInsertOpt_keys_mem (idx : Index) (opt : QemuOpt)
    (h : opt.name ∈ idx.map Prod.fst) :
    (idxInsertOpt idx opt).map Prod.fst = idx.map Prod.fst := by
  induction idx with
  | nil => simp at h
  | cons p rest ih =>
    obtain ⟨n, q⟩ := p
    by_cases hn : n = opt.name
    · rw [idxInsertOpt, if_pos hn]
      simp
    · rw [idxInsertOpt, if_neg hn]
      simp only [List.map_cons, List.mem_cons] at h
      simp only [List.map_cons]
      rcases h with h | h
      · exact absurd h.symm hn
      · rw [ih h]

lemma idxInsertOpt_keys_not_mem (idx : Index) (opt : QemuOpt)
    (h : opt.name ∉ idx.map Prod.fst) :
    (idxInsertOpt idx opt).map Prod.fst = idx.map Prod.fst ++ [opt.name] := by
  induction idx with
  | nil => simp [idxInsertOpt]
  | cons p rest ih =>
    obtain ⟨n, q⟩ := p
    simp only [List.map_cons, List.mem_cons] at h
    push_neg at h
    rw [idxInsertOpt, if_neg (fun he => h.1 he.symm)]
    simp only [List.map_cons, List.cons_append]
    rw [ih h.2]

lemma idxInsertOpt_mem (idx : Index) (opt : QemuOpt) (p : String × List QemuOpt)
    (hp : p ∈ idxInsertOpt idx opt) :
    p ∈ idx ∨ p = (opt.name, [opt]) ∨
    ∃ q, (opt.name, q) ∈ idx ∧ p = (opt.name, q ++ [opt]) := by
  induction idx with
  | nil =>
    simp [idxInsertOpt] at hp
    right
    left
    exact hp
  | cons hd rest ih =>
    obtain ⟨n, q⟩ := hd
    by_cases hn : n = opt.name
    · subst hn
      rw [idxInsertOpt, if_pos rfl] at hp
      rcases List.mem_cons.mp hp with rfl | hp2
      · right
        right
        exact ⟨q, List.mem_cons_self _ _, rfl⟩
      · left
        exact List.mem_cons_of_mem _ hp2
    · rw [idxInsertOpt, if_neg hn] at hp
      rcases List.mem_cons.mp hp with rfl | hp2
      · left
        exact List.mem_cons_self _ _
      · rcases ih hp2 with h | h | ⟨q2, hq2, he⟩
        · left
          exact List.mem_cons_of_mem _ h
        · right
          left
          exact h
        · right
          right
          exact ⟨q2, List.mem_cons_of_mem _ hq2, he⟩

lemma wf_idxInsertOpt (idx : Index) (opt : QemuOpt) (h : IndexWF idx) :
    IndexWF (idxInsertOpt idx opt) := by
  obtain ⟨hnodup, hall⟩ := h
  constructor
  · by_cases hm : opt.name ∈ idx.map Prod.fst
    · rw [idxInsertOpt_keys_mem idx opt hm]
      exact hnodup
    · rw [idxInsertOpt_keys_not_mem idx opt hm]
      simp [List.nodup_append, hnodup, hm]
  · intro p hp
    rcases idxInsertOpt_mem idx opt p hp with hin | rfl | ⟨q, hq, rfl⟩
    · exact hall p hin
    · exact ⟨by simp, by simp⟩
    · obtain ⟨hne, hnames⟩ := hall _ hq
      refine ⟨by simp, ?_⟩
      intro o ho
      rcases List.mem_append.mp ho with ho | ho
      · exact hnames o ho
      · rw [List.mem_singleton.mp ho]

lemma wf_foldl_idxInsertOpt (l : List QemuOpt) (idx : Index) (h : IndexWF idx) :
    IndexWF (l.foldl idxInsertOpt idx) := by
  induction l generalizing idx with
  | nil => exact h
  | cons o rest ih => exact ih _ (wf_idxInsertOpt idx o h)

lemma idxUpdate_keys (idx : Index) (name : String) (q : List QemuOpt) :
    (idxUpdate idx name q).map Prod.fst = idx.map Prod.fst := by
  induction idx with
  | nil => simp [idxUpdate]
  | cons p rest ih =>
    obtain ⟨n, p2⟩ := p
    by_cases hn : n = name <;> simp [idxUpdate, hn, ih]

lemma idxUpdate_mem (idx : Index) (name : String) (q : List QemuOpt)
    (p : String × List QemuOpt) (hp : p ∈ idxUpdate idx name q) :
    p ∈ idx ∨ p = (name, q) := by
  induction idx with
  | nil => simp [idxUpdate] at hp
  | cons hd rest ih =>
    obtain ⟨n, p2⟩ := hd
    by_cases hn : n = name
    · subst hn
      rw [idxUpdate, if_pos rfl] at hp
      rcases List.mem_cons.mp hp with rfl | hp2
      · right
        rfl
      · rcases ih hp2 with h | h
        · exact Or.inl (List.mem_cons_of_mem _ h)
        · exact Or.inr h
    · rw [idxUpdate, if_neg hn] at hp
      rcases List.mem_cons.mp hp with rfl | hp2
      · exact Or.inl (List.mem_cons_self _ _)
      · rcases ih hp2 with h | h
        · exact Or.inl (List.mem_cons_of_mem _ h)
        · exact Or.inr h

lemma idxRemove_idxUpdate (idx : Index) (name : String) (q : List QemuOpt) :
    idxRemove (idxUpdate idx name q) name = idxRemove idx name := by
  induction idx with
  | nil => simp [idxUpdate, idxRemove]
  | cons p rest ih =>
    obtain ⟨n, p2⟩ := p
    by_cases hn : n = name <;> simp [idxUpdate, idxRemove, hn, ih]

lemma processed_some_cases (name : String) (s t : OptsVisitor)
    (h : processed name s = some t) :
    t = { s with unprocessed_opts := idxRemove s.unprocessed_opts name } ∨ t = s := by
  unfold processed at h
  split at h
  · left
    injection h with h1
    exact h1.symm
  · split at h
    · right
      injection h with h1
      exact h1.symm
    · cases h

lemma wf_of_idx_shape (name : String) (s t : OptsVisitor)
    (h : IndexWF s.unprocessed_opts)
    (hsh : t.unprocessed_opts = s.unprocessed_opts ∨
           t.unprocessed_opts = idxRemove s.unprocessed_opts name) :
    IndexWF t.unprocessed_opts := by
  rcases hsh with he | he <;> rw [he]
  · exact h
  · exact wf_idxRemove _ _ h

lemma opts_type_int_parse_idx (name : String) (opt : QemuOpt) (s t : OptsVisitor)
    (ht : resState (opts_type_int_parse name opt s) = some t) :
    t.unprocessed_opts = s.unprocessed_opts ∨
    t.unprocessed_opts = idxRemove s.unprocessed_opts name := by
  simp only [opts_type_int_parse] at ht
  repeat' split at ht
  all_goals simp only [resState] at ht
  all_goals try exact Option.noConfusion ht
  all_goals injection ht with ht2
  all_goals subst ht2
  all_goals try exact Or.inl rfl
  all_goals rename_i s2 heq
  all_goals rcases processed_some_cases _ _ _ heq with rfl | rfl
  · right
    rfl
  · left
    rfl

lemma opts_type_uint64_parse_idx (name : String) (opt : QemuOpt) (s t : OptsVisitor)
    (ht : resState (opts_type_uint64_parse name opt s) = some t) :
    t.unprocessed_opts = s.unprocessed_opts ∨
    t.unprocessed_opts = idxRemove s.unprocessed_opts name := by
  simp only [opts_type_uint64_parse] at ht
  repeat' split at ht
  all_goals simp only [resState] at ht
  all_goals try exact Option.noConfusion ht
  all_goals injection ht with ht2
  all_goals subst ht2
  all_goals try exact Or.inl rfl
  all_goals rename_i s2 heq
  all_goals rcases processed_some_cases _ _ _ heq with rfl | rfl
  · right
    rfl
  · left
    rfl

lemma opts_type_str_body_idx (name : String) (opt : QemuOpt) (s t : OptsVisitor)
    (ht : resState (opts_type_str_body name opt s) = some t) :
    t.unprocessed_opts = s.unprocessed_opts ∨
    t.unprocessed_opts = idxRemove s.unprocessed_opts name := by
  simp only [opts_type_str_body] at ht
  repeat' split at ht
  all_goals simp only [resState] at ht
  all_goals try exact Option.noConfusion ht
  all_goals injection ht with ht2
  all_goals subst ht2
  all_goals rename_i s2 heq
  all_goals rcases processed_some_cases _ _ _ heq with rfl | rfl
  · right
    rfl
  · left
    rfl

lemma opts_type_bool_body_idx (name : String) (opt : QemuOpt) (s t : OptsVisitor)
    (ht : resState (opts_type_bool_body name opt s) = some t) :
    t.unprocessed_opts = s.unprocessed_opts ∨
    t.unprocessed_opts = idxRemove s.unprocessed_opts name := by
  simp only [opts_type_bool_body] at ht
  repeat' split at ht
  all_goals simp only [resState] at ht
  all_goals try exact Option.noConfusion ht
  all_goals injection ht with ht2
  all_goals subst ht2
  all_goals try exact Or.inl rfl
  all_goals rename_i s2 heq
  all_goals rcases processed_some_cases _ _ _ heq with rfl | rfl
  all_goals first
    | (right; rfl)
    | (left; rfl)

lemma opts_type_size_body_idx (name : String) (opt : QemuOpt) (s t : OptsVisitor)
    (ht : resState (opts_type_size_body name opt s) = some t) :
    t.unprocessed_opts = s.unprocessed_opts ∨
    t.unprocessed_opts = idxRemove s.unprocessed_opts name := by
  simp only [opts_type_size_body] at ht
  repeat' split at ht
  all_goals simp only [resState] at ht
  all_goals try exact Option.noConfusion ht
  all_goals injection ht with ht2
  all_goals subst ht2
  all_goals try exact Or.inl rfl
  all_goals rename_i s2 heq
  all_goals rcases processed_some_cases _ _ _ heq with rfl | rfl
  · right
    rfl
  · left
    rfl

lemma scalar_idx_shape_str (name : String) (s t : OptsVisitor)
    (ht : resState (opts_type_str name s) = some t) :
    t.unprocessed_opts = s.unprocessed_opts ∨
    t.unprocessed_opts = idxRemove s.unprocessed_opts name := by
  unfold opts_type_str at ht
  cases hl : lookup_scalar name s <;> rw [hl] at ht
  case ok opt s1 =>
    have hs1 : s1 = s := lookup_scalar_state name s s1 (by rw [hl]; rfl)
    rw [hs1] at ht
    exact opts_type_str_body_idx name opt s t ht
  case silent s1 =>
    have hs1 : s1 = s := lookup_scalar_state name s s1 (by rw [hl]; rfl)
    simp only [resState, Option.some.injEq] at ht
    subst ht
    left
    rw [hs1]
  case err e s1 =>
    have hs1 : s1 = s := lookup_scalar_state name s s1 (by rw [hl]; rfl)
    simp only [resState, Option.some.injEq] at ht
    subst ht
    left
    rw [hs1]
  case fatal => simp [resState] at ht

lemma scalar_idx_shape_bool (name : String) (s t : OptsVisitor)
    (ht : resState (opts_type_bool name s) = some t) :
    t.unprocessed_opts = s.unprocessed_opts ∨
    t.unprocessed_opts = idxRemove s.unprocessed_opts name := by
  unfold opts_type_bool at ht
  cases hl : lookup_scalar name s <;> rw [hl] at ht
  case ok opt s1 =>
    have hs1 : s1 = s := lookup_scalar_state name s s1 (by rw [hl]; rfl)
    rw [hs1] at ht
    exact opts_type_bool_body_idx name opt s t ht
  case silent s1 =>
    have hs1 : s1 = s := lookup_scalar_state name s s1 (by rw [hl]; rfl)
    simp only [resState, Option.some.injEq] at ht
    subst ht
    left
    rw [hs1]
  case err e s1 =>
    have hs1 : s1 = s := lookup_scalar_state name s s1 (by rw [hl]; rfl)
    simp only [resState, Option.some.injEq] at ht
    subst ht
    left
    rw [hs1]
  case fatal => simp [resState] at ht

lemma scalar_idx_shape_size (name : String) (s t : OptsVisitor)
    (ht : resState (opts_type_size name s) = some t) :
    t.unprocessed_opts = s.unprocessed_opts ∨
    t.unprocessed_opts = idxRemove s.unprocessed_opts name := by
  unfold opts_type_size at ht
  cases hl : lookup_scalar name s <;> rw [hl] at ht
  case ok opt s1 =>
    have hs1 : s1 = s := lookup_scalar_state name s s1 (by rw [hl]; rfl)
    rw [hs1] at ht
    exact opts_type_size_body_idx name opt s t ht
  case silent s1 =>
    have hs1 : s1 = s := lookup_scalar_state name s s1 (by rw [hl]; rfl)
    simp only [resState, Option.some.injEq] at ht
    subst ht
    left
    rw [hs1]
  case err e s1 =>
    have hs1 : s1 = s := lookup_scalar_state name s s1 (by rw [hl]; rfl)
    simp only [resState, Option.some.injEq] at ht
    subst ht
    left
    rw [hs1]
  case fatal => simp [resState] at ht

lemma scalar_idx_shape_int (name : String) (s t : OptsVisitor)
    (ht : resState (opts_type_int name s) = some t) :
    t.unprocessed_opts = s.unprocessed_opts ∨
    t.unprocessed_opts = idxRemove s.unprocessed_opts name := by
  unfold opts_type_int at ht
  split at ht
  · simp only [resState, Option.some.injEq] at ht
    subst ht
    left
    rfl
  · cases hl : lookup_scalar name s <;> rw [hl] at ht
    case ok opt s1 =>
      have hs1 : s1 = s := lookup_scalar_state name s s1 (by rw [hl]; rfl)
      rw [hs1] at ht
      exact opts_type_int_parse_idx name opt s t ht
    case silent s1 =>
      have hs1 : s1 = s := lookup_scalar_state name s s1 (by rw [hl]; rfl)
      simp only [resState, Option.some.injEq] at ht
      subst ht
      left
      rw [hs1]
    case err e s1 =>
      have hs1 : s1 = s := lookup_scalar_state name s s1 (by rw [hl]; rfl)
      simp only [resState, Option.some.injEq] at ht
      subst ht
      left
      rw [hs1]
    case fatal => simp [resState] at ht

lemma scalar_idx_shape_uint64 (name : String) (s t : OptsVisitor)
    (ht : resState (opts_type_uint64 name s) = some t) :
    t.unprocessed_opts = s.unprocessed_opts ∨
    t.unprocessed_opts = idxRemove s.unprocessed_opts name := by
  unfold opts_type_uint64 at ht
  split at ht
  · simp only [resState, Option.some.injEq] at ht
    subst ht
    left
    rfl
  · cases hl : lookup_scalar name s <;> rw [hl] at ht
    case ok opt s1 =>
      have hs1 : s1 = s := lookup_scalar_state name s s1 (by rw [hl]; rfl)
      rw [hs1] at ht
      exact opts_type_uint64_parse_idx name opt s t ht
    case silent s1 =>
      have hs1 : s1 = s := lookup_scalar_state name s s1 (by rw [hl]; rfl)
      simp only [resState, Option.some.injEq] at ht
      subst ht
      left
      rw [hs1]
    case err e s1 =>
      have hs1 : s1 = s := lookup_scalar_state name s s1 (by rw [hl]; rfl)
      simp only [resState, Option.some.injEq] at ht
      subst ht
      left
      rw [hs1]
    case fatal => simp [resState] at ht

lemma opts_next_pop_eq (s : OptsVisitor) (rname : String) (opt : QemuOpt)
    (rest : List QemuOpt) (hro : s.repeated_opts = some rname)
    (hlk : idxLookup s.unprocessed_opts rname = some (opt :: rest)) :
    opts_next_pop s =
      if rest = [] then
        .ok false
          { s with
              list_mode := .LM_IN_PROGRESS,
              unprocessed_opts :=
                idxRemove (idxUpdate s.unprocessed_opts rname rest) opt.name }
      else
        .ok true
          { s with
              list_mode := .LM_IN_PROGRESS,
              unprocessed_opts := idxUpdate s.unprocessed_opts rname rest } := by
  simp [opts_next_pop, hro, hlk]

lemma wf_opts_next_pop (s t : OptsVisitor) (h : IndexWF s.unprocessed_opts)
    (ht : resState (opts_next_pop s) = some t) : IndexWF t.unprocessed_opts := by
  cases hro : s.repeated_opts with
  | none => simp [opts_next_pop, hro, resState] at ht
  | some rname =>
    cases hlk : idxLookup s.unprocessed_opts rname with
    | none => simp [opts_next_pop, hro, hlk, resState] at ht
    | some q =>
      cases q with
      | nil => simp [opts_next_pop, hro, hlk, resState] at ht
      | cons opt rest =>
        obtain ⟨hne, hnames⟩ := h.2 _ (idxLookup_mem _ _ _ hlk)
        have hopt : opt.name = rname := hnames opt (List.mem_cons_self _ _)
        rw [opts_next_pop_eq s rname opt rest hro hlk] at ht
        by_cases hrest : rest = []
        · rw [if_pos hrest] at ht
          simp only [resState, Option.some.injEq] at ht
          subst ht
          show IndexWF (idxRemove (idxUpdate s.unprocessed_opts rname rest) opt.name)
          rw [hopt, idxRemove_idxUpdate]
          exact wf_idxRemove _ _ h
        · rw [if_neg hrest] at ht
          simp only [resState, Option.some.injEq] at ht
          subst ht
          show IndexWF (idxUpdate s.unprocessed_opts rname rest)
          constructor
          · rw [idxUpdate_keys]
            exact h.1
          · intro p hp
            rcases idxUpdate_mem _ _ _ _ hp with hin | rfl
            · exact h.2 p hin
            · exact ⟨hrest, fun o ho => hnames o (List.mem_cons_of_mem _ ho)⟩

lemma wf_nil : IndexWF ([] : Index) := by
  constructor
  · exact List.nodup_nil
  · intro p hp
    simp at hp



/-- C9: the index invariant — every queue stored in the index is non-empty
(a name is present exactly while an unconsumed occurrence remains) — is
established by the outermost `opts_start_struct` and preserved by every
operation of the session: both struct operations, the three list operations,
the presence query and all five scalar decoders. -/
theorem c9_index_invariant (s : OptsVisitor) (h : IndexWF s.unprocessed_opts) :
    (∀ nm q, idxLookup s.unprocessed_opts nm = some q → q ≠ []) ∧
    (∀ t, resState (opts_start_struct s) = some t → IndexWF t.unprocessed_opts) ∧
    (∀ t, resState (opts_end_struct s) = some t → IndexWF t.unprocessed_opts) ∧
    (∀ name t, resState (opts_start_list name s) = some t → IndexWF t.unprocessed_opts) ∧
    (∀ t, resState (opts_next_list s) = some t → IndexWF t.unprocessed_opts) ∧
    (∀ t, resState (opts_end_list s) = some t → IndexWF t.unprocessed_opts) ∧
    (∀ name t, resState (opts_start_optional name s) = some t → IndexWF t.unprocessed_opts) ∧
    (∀ name t, resState (opts_type_str name s) = some t → IndexWF t.unprocessed_opts) ∧
    (∀ name t, resState (opts_type_bool name s) = some t → IndexWF t.unprocessed_opts) ∧
    (∀ name t, resState (opts_type_int name s) = some t → IndexWF t.unprocessed_opts) ∧
    (∀ name t, resState (opts_type_uint64 name s) = some t → IndexWF t.unprocessed_opts) ∧
    (∀ name t, resState (opts_type_size name s) = some t → IndexWF t.unprocessed_opts) := by
  refine ⟨?_, ?_, ?_, ?_, ?_, ?_, ?_, ?_, ?_, ?_, ?_, ?_⟩
  · intro nm q hq
    exact (h.2 _ (idxLookup_mem _ _ _ hq)).1
  · intro t ht
    simp only [opts_start_struct] at ht
    split at ht
    · simp only [resState, Option.some.injEq] at ht
      subst ht
      exact h
    · split at ht
      · simp [resState] at ht
      · simp only [resState, Option.some.injEq] at ht
        subst ht
        cases hid : s.opts_root_id <;> simp only [hid]
        · exact wf_foldl_idxInsertOpt _ _ wf_nil
        · exact wf_idxInsertOpt _ _ (wf_foldl_idxInsertOpt _ _ wf_nil)
  · intro t ht
    simp only [opts_end_struct] at ht
    split at ht
    · simp only [resState, Option.some.injEq] at ht
      subst ht
      exact h
    · repeat' split at ht
      all_goals simp only [resState] at ht
      all_goals try exact Option.noConfusion ht
      all_goals injection ht with ht2
      all_goals subst ht2
      all_goals exact wf_nil
  · intro name t ht
    simp only [opts_start_list] at ht
    repeat' split at ht
    all_goals simp only [resState] at ht
    all_goals try exact Option.noConfusion ht
    all_goals injection ht with ht2
    all_goals subst ht2
    all_goals exact h
  · intro t ht
    unfold opts_next_list at ht
    split at ht
    case h_1 =>
      simp only [resState, Option.some.injEq] at ht
      subst ht
      exact h
    case h_2 =>
      split at ht
      · simp only [resState, Option.some.injEq] at ht
        subst ht
        exact h
      · exact wf_opts_next_pop s t h ht
    case h_3 =>
      split at ht
      · simp only [resState, Option.some.injEq] at ht
        subst ht
        exact h
      · exact wf_opts_next_pop s t h ht
    case h_4 => exact wf_opts_next_pop s t h ht
    case h_5 => simp [resState] at ht
  · intro t ht
    unfold opts_end_list at ht
    split at ht
    · simp [resState] at ht
    · simp only [resState, Option.some.injEq] at ht
      subst ht
      exact h
  · intro name t ht
    unfold opts_start_optional at ht
    split at ht
    · simp only [resState, Option.some.injEq] at ht
      subst ht
      exact h
    · simp [resState] at ht
  · intro name t ht
    exact wf_of_idx_shape name s t h (scalar_idx_shape_str name s t ht)
  · intro name t ht
    exact wf_of_idx_shape name s t h (scalar_idx_shape_bool name s t ht)
  · intro name t ht
    exact wf_of_idx_shape name s t h (scalar_idx_shape_int name s t ht)
  · intro name t ht
    exact wf_of_idx_shape name s t h (scalar_idx_shape_uint64 name s t ht)
  · intro name t ht
    exact wf_of_idx_shape name s t h (scalar_idx_shape_size name s t ht)

/-- Witness for C9: the invariant holds concretely before and after a
consuming decode. -/
theorem c9_index_invariant_witness :
  IndexWF c9S.unprocessed_opts ∧ IndexWF c9Post.unprocessed_opts :=
  ⟨by decide,
   (c9_index_invariant c9S (by decide)).2.2.2.2.2.2.2.1 "a" c9Post (by decide)⟩
